import Mathlib

/-!
Shallow embedding of `internal/stats/stats.go` from the gogrowatt repository.

Modelling conventions:
* `float64` values are modelled as exact rationals (`ℚ`); every arithmetic
  operation the statistics code performs (addition, subtraction,
  multiplication, division, comparison) is exact on `ℚ`.  The only
  operation that leaves the rationals is `math.Sqrt`, so standard
  deviations live in `ℝ` and are produced by `Real.sqrt`.
* Go `nil`-able pointers (`*HourlyStats` inside the `[24]` array of
  `DailyStats`) are modelled with `Option`.
* Go slices are Lean lists; `append` is `++`.
* The Go loops are `List.foldl` folds whose step functions are written out
  as top-level definitions, mirroring the loop bodies.
* `math.MaxFloat64` is the largest finite IEEE-754 double, which is the
  exact rational `2 ^ 1024 - 2 ^ 971`.
-/

namespace Growatt

set_option maxRecDepth 8000

/-- Exact rational value of `math.MaxFloat64`, the sentinel used by
`NewHourlyStats` and `AggregateDays` before any sample is folded in. -/
def maxFloat64 : ℚ := ((2 ^ 1024 - 2 ^ 971 : ℕ) : ℚ)

/-- Model of `stats.HourlyStats`: statistics for a single hour of one day. -/
structure HourlyStats where
  Hour : ℕ
  Samples : ℕ
  Min : ℚ
  Max : ℚ
  Sum : ℚ
  Mean : ℚ
  StdDev : ℝ
  Values : List ℚ

/-- Model of `growatt.ParsedPowerData`.  The `Date` is kept as its formatted
`YYYY-MM-DD` string (the aggregator only ever formats it); `Hour` is an
integer so that out-of-range hours, negative ones included, are
representable, exactly as with Go's `int`. -/
structure ParsedPowerData where
  Date : String
  Time : String
  Power : ℚ
  Hour : ℤ
  Minute : ℤ

/-- Model of `stats.DailyStats`: a date together with a 24-slot array of
possibly-`nil` hour buckets. -/
structure DailyStats where
  Date : String
  Hours : Fin 24 → Option HourlyStats

/-- Model of `stats.AggregatedHourStats`: one hour of day aggregated across
several days. -/
structure AggregatedHourStats where
  Hour : ℕ
  SampleDays : ℕ
  Min : ℚ
  Max : ℚ
  Average : ℚ
  Median : ℚ
  StdDev : ℝ
  Values : List ℚ

/-- Model of `stats.MultiDayStats`. -/
structure MultiDayStats where
  StartDate : String
  EndDate : String
  DaysAnalyzed : ℕ
  ByHour : Fin 24 → AggregatedHourStats
  TotalProduction : ℚ
  DailyAverage : ℚ
  PeakHour : ℕ
  PeakPowerAvg : ℚ

/-- Model of `stats.NewHourlyStats`: fresh bucket with the
`+MaxFloat64` / `-MaxFloat64` sentinels; the remaining fields are Go zero
values. -/
def NewHourlyStats (hour : ℕ) : HourlyStats :=
  { Hour := hour
    Samples := 0
    Min := maxFloat64
    Max := -maxFloat64
    Sum := 0
    Mean := 0
    StdDev := 0
    Values := [] }

/-- Model of `(*HourlyStats).AddValue`.  The source mutates the receiver
field by field; since the min/max conditionals read only fields they do not
write, the sequential updates are the simultaneous record update below. -/
def HourlyStats.AddValue (h : HourlyStats) (power : ℚ) : HourlyStats :=
  { Hour := h.Hour
    Samples := h.Samples + 1
    Min := if power < h.Min then power else h.Min
    Max := if power > h.Max then power else h.Max
    Sum := h.Sum + power
    Mean := h.Mean
    StdDev := h.StdDev
    Values := h.Values ++ [power] }

/-- Model of `stats.CalculateStdDev`: `0` for fewer than two values,
otherwise the square root of the Bessel-corrected variance.  The sum of
squares is folded exactly as the Go loop does; only the final square root
moves to `ℝ`. -/
noncomputable def CalculateStdDev (values : List ℚ) (mean : ℚ) : ℝ :=
  if values.length < 2 then 0
  else
    Real.sqrt
      ((values.foldl (fun acc v => acc + (v - mean) * (v - mean)) 0 /
          ((values.length - 1 : ℕ) : ℚ) : ℚ) : ℝ)

/-- Model of `(*HourlyStats).Finalize`: zero-sample buckets have their
sentinels normalized to `0`; otherwise mean and standard deviation are
computed. -/
noncomputable def HourlyStats.Finalize (h : HourlyStats) : HourlyStats :=
  if h.Samples = 0 then { h with Min := 0, Max := 0 }
  else
    { h with
      Mean := h.Sum / (h.Samples : ℚ)
      StdDev := CalculateStdDev h.Values (h.Sum / (h.Samples : ℚ)) }

/-- Model of `stats.CalculateMedian`: sort a copy ascending (the concrete
sorting algorithm of `sort.Float64s` is irrelevant, any ascending sort is
the same function on `List ℚ`), then pick the middle element (odd length)
or the mean of the two middle elements (even length). -/
def CalculateMedian (values : List ℚ) : ℚ :=
  if values.length = 0 then 0
  else
    let sorted := values.insertionSort (· ≤ ·)
    let n := sorted.length
    if n % 2 = 0 then (sorted.getD (n / 2 - 1) 0 + sorted.getD (n / 2) 0) / 2
    else sorted.getD (n / 2) 0

/-- State-level model of `stats.CalculateMedian`: the Go function receives a
slice, copies it into `sorted`, sorts the copy in place with
`sort.Float64s` and reads the median from the copy.  The second component
of the result is the content of the argument slice at return time, which
makes the absence of mutation of the argument statable. -/
def CalculateMedianGo (values : List ℚ) : ℚ × List ℚ :=
  if values.length = 0 then (0, values)
  else
    let sorted := values.insertionSort (· ≤ ·)
    let n := sorted.length
    (if n % 2 = 0 then (sorted.getD (n / 2 - 1) 0 + sorted.getD (n / 2) 0) / 2
     else sorted.getD (n / 2) 0,
     values)

/-- The initial 24-slot bucket array built at the top of
`AggregateToHourly` ("Initialize all hours"). -/
def startHours : Fin 24 → Option HourlyStats :=
  fun i => some (NewHourlyStats i.val)

/-- Body of the sample loop of `AggregateToHourly`: a sample with an hour
in `[0, 24)` is added to its bucket, anything else is silently dropped. -/
def fillStep (hs : Fin 24 → Option HourlyStats) (p : ParsedPowerData) :
    Fin 24 → Option HourlyStats :=
  if hh : 0 ≤ p.Hour ∧ p.Hour < 24 then
    Function.update hs ⟨p.Hour.toNat, by omega⟩
      ((hs ⟨p.Hour.toNat, by omega⟩).map (fun b => b.AddValue p.Power))
  else hs

/-- Model of `stats.AggregateToHourly`: `nil` on an empty slice, otherwise
fill the 24 buckets from the samples and finalize every bucket. -/
noncomputable def AggregateToHourly (data : List ParsedPowerData) :
    Option DailyStats :=
  match data with
  | [] => none
  | p0 :: rest =>
    some
      { Date := p0.Date
        Hours := fun i =>
          (((p0 :: rest).foldl fillStep startHours) i).map HourlyStats.Finalize }

/-- The empty accumulator `AggregateDays` creates for each hour, with the
same sentinel min/max as a fresh bucket. -/
def emptyAgg (i : Fin 24) : AggregatedHourStats :=
  { Hour := i.val
    SampleDays := 0
    Min := maxFloat64
    Max := -maxFloat64
    Average := 0
    Median := 0
    StdDev := 0
    Values := [] }

/-- Body of the day/hour double loop of `AggregateDays`: a `nil` or
zero-sample bucket is skipped, otherwise the day's bucket widens min/max
and its mean is appended to the per-day means. -/
def dayStep (agg : AggregatedHourStats) (o : Option HourlyStats) :
    AggregatedHourStats :=
  match o with
  | none => agg
  | some hs =>
    if hs.Samples = 0 then agg
    else
      { agg with
        SampleDays := agg.SampleDays + 1
        Min := if hs.Min < agg.Min then hs.Min else agg.Min
        Max := if hs.Max > agg.Max then hs.Max else agg.Max
        Values := agg.Values ++ [hs.Mean] }

/-- Body of the per-hour finalization loop of `AggregateDays`: zero-day
hours have their sentinels normalized, contributing hours get average,
median and standard deviation of the per-day means. -/
noncomputable def finishAgg (agg : AggregatedHourStats) : AggregatedHourStats :=
  if agg.SampleDays = 0 then { agg with Min := 0, Max := 0 }
  else
    { agg with
      Average := agg.Values.foldl (fun acc v => acc + v) 0 /
        (agg.Values.length : ℚ)
      Median := CalculateMedian agg.Values
      StdDev := CalculateStdDev agg.Values
        (agg.Values.foldl (fun acc v => acc + v) 0 / (agg.Values.length : ℚ)) }

/-- Body of the running-maximum peak scan of `AggregateDays`; the state is
`(maxAvg, PeakHour, PeakPowerAvg)` and the scan skips hours with no
contributing day, exactly as the source's `continue` does. -/
def peakStep (byHour : Fin 24 → AggregatedHourStats) (st : ℚ × ℕ × ℚ)
    (i : Fin 24) : ℚ × ℕ × ℚ :=
  if (byHour i).SampleDays = 0 then st
  else if (byHour i).Average > st.1 then
    ((byHour i).Average, i.val, (byHour i).Average)
  else st

/-- Body of the inner loop of the energy pass of `AggregateDays`: a non-`nil`
bucket contributes its mean divided by 1000 (W to kWh for one hour). -/
def energyStep (day : DailyStats) (de : ℚ) (i : Fin 24) : ℚ :=
  match day.Hours i with
  | none => de
  | some hs => de + hs.Mean / 1000

/-- Model of the body of `stats.AggregateDays` for a non-empty day list.
The source's single finalization loop both finalizes hour `i`'s aggregate
and advances the peak scan; since the loop body writes only hour `i`'s
aggregate and the scalar peak state, it decomposes into the per-hour
`finishAgg` map and the `peakStep` fold below.  The energy pass is a
separate loop in the source as well. -/
noncomputable def AggregateDaysCore (d0 : DailyStats) (rest : List DailyStats) :
    MultiDayStats :=
  let days := d0 :: rest
  let accum : Fin 24 → AggregatedHourStats :=
    days.foldl (fun acc day => fun i => dayStep (acc i) (day.Hours i)) emptyAgg
  let byHour : Fin 24 → AggregatedHourStats := fun i => finishAgg (accum i)
  let peak := (List.finRange 24).foldl (peakStep byHour) (0, 0, 0)
  let total : ℚ :=
    days.foldl (fun acc day => acc + (List.finRange 24).foldl (energyStep day) 0) 0
  let daysAnalyzed := days.length
  { StartDate := d0.Date
    EndDate := (days.getLast (List.cons_ne_nil d0 rest)).Date
    DaysAnalyzed := daysAnalyzed
    ByHour := byHour
    TotalProduction := total
    DailyAverage := if 0 < daysAnalyzed then total / (daysAnalyzed : ℚ) else 0
    PeakHour := peak.2.1
    PeakPowerAvg := peak.2.2 }

/-- Model of `stats.AggregateDays`: `nil` on an empty list, otherwise the
body above. -/
noncomputable def AggregateDays : List DailyStats → Option MultiDayStats
  | [] => none
  | d0 :: rest => some (AggregateDaysCore d0 rest)

/-- Model of `stats.HourlyRow`. -/
structure HourlyRow where
  Date : String
  Hour : ℕ
  Min : ℚ
  Max : ℚ
  Avg : ℚ
  Samples : ℕ
deriving DecidableEq

/-- The row built from one non-`nil` bucket by `GetHourlyRows`. -/
def mkRow (day : DailyStats) (i : Fin 24) (h : HourlyStats) : HourlyRow :=
  { Date := day.Date
    Hour := i.val
    Min := h.Min
    Max := h.Max
    Avg := h.Mean
    Samples := h.Samples }

/-- Model of `stats.GetHourlyRows`: both loops append into the same `rows`
slice, so the row accumulator threads through both folds. -/
def GetHourlyRows (days : List DailyStats) : List HourlyRow :=
  days.foldl
    (fun rows day =>
      (List.finRange 24).foldl
        (fun rs i =>
          match day.Hours i with
          | none => rs
          | some h => rs ++ [mkRow day i h]) rows) []

/-- Sample count of a possibly-`nil` bucket (`nil` counts as zero samples). -/
def sampleCount (o : Option HourlyStats) : ℕ :=
  match o with
  | none => 0
  | some hs => hs.Samples

/-- Whether a day's bucket for hour `i` has recorded data, i.e. whether the
day contributes to hour `i` in `AggregateDays`. -/
def contributesB (d : DailyStats) (i : Fin 24) : Bool :=
  decide (0 < sampleCount (d.Hours i))

/-- The mean stored in a day's bucket for hour `i` (`0` for a `nil` bucket,
matching the skip in the energy loop). -/
def meanAt (d : DailyStats) (i : Fin 24) : ℚ :=
  match d.Hours i with
  | none => 0
  | some hs => hs.Mean

/-- The minimum stored in a day's bucket for hour `i`. -/
def minAt (d : DailyStats) (i : Fin 24) : ℚ :=
  match d.Hours i with
  | none => 0
  | some hs => hs.Min

/-- The maximum stored in a day's bucket for hour `i`. -/
def maxAt (d : DailyStats) (i : Fin 24) : ℚ :=
  match d.Hours i with
  | none => 0
  | some hs => hs.Max

/-- All buckets of a day hold values in the finite-double range: every
non-`nil` bucket's `Min` is at most `MaxFloat64` and its `Max` at least
`-MaxFloat64`.  Every bucket filled from actual `float64` samples satisfies
this. -/
def dayBounded (d : DailyStats) : Bool :=
  (List.finRange 24).all fun i =>
    match d.Hours i with
    | none => true
    | some hs => decide (hs.Min ≤ maxFloat64) && decide (-maxFloat64 ≤ hs.Max)

/-- The peak scan of `AggregateDays` as a function of the hour list. -/
def peakScan (byHour : Fin 24 → AggregatedHourStats) (l : List (Fin 24)) :
    ℚ × ℕ × ℚ :=
  l.foldl (peakStep byHour) (0, 0, 0)

/-- The rows one slot of one day contributes: nothing for a `nil` bucket,
one row otherwise. -/
def rowOpt (day : DailyStats) (i : Fin 24) : List HourlyRow :=
  match day.Hours i with
  | none => []
  | some h => [mkRow day i h]

/-- Formulation of the sample standard deviation following the
specification's words: square root of `Σ (v - mean)² / (n - 1)` with
Bessel's `n - 1` denominator, and `0` for fewer than two values.  This
definition is deliberately written from the spec, to be compared with
`CalculateStdDev`, which is written from the source. -/
noncomputable def stdDevSpec (values : List ℚ) (mean : ℚ) : ℝ :=
  if values.length < 2 then 0
  else
    Real.sqrt
      (((values.map fun v => (v - mean) ^ 2).sum / ((values.length : ℚ) - 1) : ℚ) : ℝ)

/-- The days contributing to hour `i`: those whose bucket for hour `i` has
recorded samples. -/
def contribDays (days : List DailyStats) (i : Fin 24) : List DailyStats :=
  days.filter (fun d => contributesB d i)

/-- The per-day hourly means of the contributing days, in day order. -/
def contribMeans (days : List DailyStats) (i : Fin 24) : List ℚ :=
  (contribDays days i).map (fun d => meanAt d i)

/-- The per-day hourly minimums of the contributing days. -/
def contribMins (days : List DailyStats) (i : Fin 24) : List ℚ :=
  (contribDays days i).map (fun d => minAt d i)

/-- The per-day hourly maximums of the contributing days. -/
def contribMaxs (days : List DailyStats) (i : Fin 24) : List ℚ :=
  (contribDays days i).map (fun d => maxAt d i)

/-! Concrete fixtures for witnesses and counterexamples -/

/-- Concrete hour-12 bucket of a first day (two samples, 4000 W and 4200 W),
as `AggregateToHourly` would produce it. -/
def wBucket1 : HourlyStats :=
  { Hour := 12, Samples := 2, Min := 4000, Max := 4200, Sum := 8200,
    Mean := 4100, StdDev := 0, Values := [4000, 4200] }

/-- Concrete hour-12 bucket of a second day (one 4500 W sample). -/
def wBucket2 : HourlyStats :=
  { Hour := 12, Samples := 1, Min := 4500, Max := 4500, Sum := 4500,
    Mean := 4500, StdDev := 0, Values := [4500] }

/-- First concrete day: data at hour 12 only. -/
def wDay1 : DailyStats :=
  { Date := "2025-02-01"
    Hours := fun i => if i.val = 12 then some wBucket1 else none }

/-- Second concrete day: data at hour 12 only. -/
def wDay2 : DailyStats :=
  { Date := "2025-02-02"
    Hours := fun i => if i.val = 12 then some wBucket2 else none }

/-- A sample whose hour `24` lies outside `[0, 23]`. -/
def badSample : ParsedPowerData :=
  { Date := "2025-02-03", Time := "24:00", Power := 500, Hour := 24, Minute := 0 }

/-- A day whose 24 buckets are all present but hold zero samples, exactly
what `AggregateToHourly` produces for a day whose samples were all
discarded. -/
noncomputable def zeroDay : DailyStats :=
  { Date := "2025-02-03", Hours := fun i => some ((NewHourlyStats i.val).Finalize) }

/-! Generic fold lemmas -/

lemma foldl_add_eq {α : Type} (g : α → ℚ) :
    ∀ (l : List α) (a : ℚ), l.foldl (fun acc x => acc + g x) a = a + (l.map g).sum
  | [], a => by simp
  | x :: l, a => by
    rw [List.foldl_cons, foldl_add_eq g l (a + g x)]
    simp [add_assoc]

lemma sum_map_div {α : Type} (g : α → ℚ) (c : ℚ) :
    ∀ l : List α, (l.map fun x => g x / c).sum = (l.map g).sum / c
  | [] => by simp
  | x :: l => by simp [sum_map_div g c l, add_div]

lemma foldl_min_le_start : ∀ (l : List ℚ) (a : ℚ), l.foldl min a ≤ a
  | [], a => le_refl a
  | x :: l, a => le_trans (foldl_min_le_start l (min a x)) (min_le_left a x)

lemma foldl_min_le_mem : ∀ (l : List ℚ) (a x : ℚ), x ∈ l → l.foldl min a ≤ x
  | y :: l, a, x, hx => by
    rw [List.foldl_cons]
    rcases List.mem_cons.mp hx with h | h
    · subst h
      exact le_trans (foldl_min_le_start l (min a x)) (min_le_right a x)
    · exact foldl_min_le_mem l (min a y) x h

lemma foldl_min_mem : ∀ (l : List ℚ) (a : ℚ), l.foldl min a = a ∨ l.foldl min a ∈ l
  | [], _ => Or.inl rfl
  | x :: l, a => by
    rw [List.foldl_cons]
    rcases foldl_min_mem l (min a x) with h | h
    · rw [h]
      rcases le_total a x with hax | hxa
      · exact Or.inl (min_eq_left hax)
      · exact Or.inr (by rw [min_eq_right hxa]; exact List.mem_cons_self x l)
    · exact Or.inr (List.mem_cons_of_mem x h)

lemma foldl_min_spec (l : List ℚ) (a : ℚ) (hne : l ≠ []) (hb : ∀ v ∈ l, v ≤ a) :
    l.foldl min a ∈ l ∧ ∀ v ∈ l, l.foldl min a ≤ v := by
  refine ⟨?_, fun v hv => foldl_min_le_mem l a v hv⟩
  rcases foldl_min_mem l a with h | h
  · obtain ⟨v0, hv0⟩ := List.exists_mem_of_ne_nil l hne
    have h1 := foldl_min_le_mem l a v0 hv0
    have h2 : l.foldl min a = v0 := le_antisymm h1 (by rw [h]; exact hb v0 hv0)
    rw [h2]
    exact hv0
  · exact h

lemma foldl_max_ge_start : ∀ (l : List ℚ) (a : ℚ), a ≤ l.foldl max a
  | [], a => le_refl a
  | x :: l, a => le_trans (le_max_left a x) (foldl_max_ge_start l (max a x))

lemma foldl_max_ge_mem : ∀ (l : List ℚ) (a x : ℚ), x ∈ l → x ≤ l.foldl max a
  | y :: l, a, x, hx => by
    rw [List.foldl_cons]
    rcases List.mem_cons.mp hx with h | h
    · subst h
      exact le_trans (le_max_right a x) (foldl_max_ge_start l (max a x))
    · exact foldl_max_ge_mem l (max a y) x h

lemma foldl_max_mem : ∀ (l : List ℚ) (a : ℚ), l.foldl max a = a ∨ l.foldl max a ∈ l
  | [], _ => Or.inl rfl
  | x :: l, a => by
    rw [List.foldl_cons]
    rcases foldl_max_mem l (max a x) with h | h
    · rw [h]
      rcases le_total x a with hxa | hax
      · exact Or.inl (max_eq_left hxa)
      · exact Or.inr (by rw [max_eq_right hax]; exact List.mem_cons_self x l)
    · exact Or.inr (List.mem_cons_of_mem x h)

lemma foldl_max_spec (l : List ℚ) (a : ℚ) (hne : l ≠ []) (hb : ∀ v ∈ l, a ≤ v) :
    l.foldl max a ∈ l ∧ ∀ v ∈ l, v ≤ l.foldl max a := by
  refine ⟨?_, fun v hv => foldl_max_ge_mem l a v hv⟩
  rcases foldl_max_mem l a with h | h
  · obtain ⟨v0, hv0⟩ := List.exists_mem_of_ne_nil l hne
    have h1 := foldl_max_ge_mem l a v0 hv0
    have h2 : l.foldl max a = v0 := le_antisymm (by rw [h]; exact hb v0 hv0) h1
    rw [h2]
    exact hv0
  · exact h

lemma ite_lt_eq_min (a b : ℚ) : (if b < a then b else a) = min a b := by
  rcases lt_or_ge b a with h | h
  · rw [if_pos h, min_eq_right h.le]
  · rw [if_neg (not_lt.mpr h), min_eq_left h]

lemma ite_gt_eq_max (a b : ℚ) : (if b > a then b else a) = max a b := by
  rcases lt_or_ge a b with h | h
  · rw [if_pos h, max_eq_right h.le]
  · rw [if_neg (not_lt.mpr h), max_eq_left h]

/-! Bucket accumulator lemmas -/

lemma addValue_fold :
    ∀ (vs : List ℚ) (b : HourlyStats),
      (vs.foldl HourlyStats.AddValue b).Samples = b.Samples + vs.length ∧
      (vs.foldl HourlyStats.AddValue b).Sum = b.Sum + vs.sum ∧
      (vs.foldl HourlyStats.AddValue b).Values = b.Values ++ vs ∧
      (vs.foldl HourlyStats.AddValue b).Min = vs.foldl min b.Min ∧
      (vs.foldl HourlyStats.AddValue b).Max = vs.foldl max b.Max
  | [], b => by simp
  | v :: vs, b => by
    obtain ⟨h1, h2, h3, h4, h5⟩ := addValue_fold vs (b.AddValue v)
    rw [List.foldl_cons]
    refine ⟨?_, ?_, ?_, ?_, ?_⟩
    · rw [h1]
      simp [HourlyStats.AddValue]
      omega
    · rw [h2]
      simp [HourlyStats.AddValue]
      ring
    · rw [h3]
      simp [HourlyStats.AddValue]
    · rw [h4]
      simp only [List.foldl_cons, HourlyStats.AddValue, ite_lt_eq_min]
    · rw [h5]
      simp only [List.foldl_cons, HourlyStats.AddValue, ite_gt_eq_max]

lemma finalize_zero (b : HourlyStats) (hb : b.Samples = 0) :
    b.Finalize = { b with Min := 0, Max := 0 } := by
  simp [HourlyStats.Finalize, hb]

lemma finalize_pos (b : HourlyStats) (hb : b.Samples ≠ 0) :
    b.Finalize =
      { b with
        Mean := b.Sum / (b.Samples : ℚ)
        StdDev := CalculateStdDev b.Values (b.Sum / (b.Samples : ℚ)) } := by
  simp [HourlyStats.Finalize, hb]

/-! `AggregateToHourly` lemmas -/

lemma fillStep_invalid (hs : Fin 24 → Option HourlyStats) (p : ParsedPowerData)
    (hp : ¬(0 ≤ p.Hour ∧ p.Hour < 24)) : fillStep hs p = hs :=
  dif_neg hp

lemma fill_invalid :
    ∀ (data : List ParsedPowerData) (hs : Fin 24 → Option HourlyStats),
      (∀ p ∈ data, ¬(0 ≤ p.Hour ∧ p.Hour < 24)) → data.foldl fillStep hs = hs
  | [], _, _ => rfl
  | p :: data, hs, h => by
    rw [List.foldl_cons, fillStep_invalid hs p (h p (List.mem_cons_self p data)),
      fill_invalid data hs (fun q hq => h q (List.mem_cons_of_mem p hq))]

/-! `AggregateDays` decomposition lemmas -/

lemma accum_apply :
    ∀ (days : List DailyStats) (g : Fin 24 → AggregatedHourStats) (i : Fin 24),
      (days.foldl (fun acc day => fun j => dayStep (acc j) (day.Hours j)) g) i =
        days.foldl (fun a day => dayStep a (day.Hours i)) (g i)
  | [], _, _ => rfl
  | d :: days, g, i => by
    rw [List.foldl_cons, List.foldl_cons]
    exact accum_apply days _ i

lemma byHour_eq (d0 : DailyStats) (rest : List DailyStats) (i : Fin 24) :
    (AggregateDaysCore d0 rest).ByHour i =
      finishAgg
        ((d0 :: rest).foldl (fun a day => dayStep a (day.Hours i)) (emptyAgg i)) := by
  show finishAgg
      (((d0 :: rest).foldl (fun acc day => fun j => dayStep (acc j) (day.Hours j))
          emptyAgg) i) = _
  rw [accum_apply]

lemma peakPair_eq (d0 : DailyStats) (rest : List DailyStats) :
    ((AggregateDaysCore d0 rest).PeakHour, (AggregateDaysCore d0 rest).PeakPowerAvg) =
      (((List.finRange 24).foldl (peakStep ((AggregateDaysCore d0 rest).ByHour))
          (0, 0, 0)).2.1,
        ((List.finRange 24).foldl (peakStep ((AggregateDaysCore d0 rest).ByHour))
          (0, 0, 0)).2.2) :=
  rfl

lemma totalProduction_eq (d0 : DailyStats) (rest : List DailyStats) :
    (AggregateDaysCore d0 rest).TotalProduction =
      (d0 :: rest).foldl
        (fun acc day => acc + (List.finRange 24).foldl (energyStep day) 0) 0 :=
  rfl

lemma daysAnalyzed_eq (d0 : DailyStats) (rest : List DailyStats) :
    (AggregateDaysCore d0 rest).DaysAnalyzed = (d0 :: rest).length :=
  rfl

lemma dailyAverage_eq (d0 : DailyStats) (rest : List DailyStats) :
    (AggregateDaysCore d0 rest).DailyAverage =
      if 0 < (d0 :: rest).length then
        (AggregateDaysCore d0 rest).TotalProduction / ((d0 :: rest).length : ℚ)
      else 0 :=
  rfl

lemma finishAgg_zero (agg : AggregatedHourStats) (h : agg.SampleDays = 0) :
    finishAgg agg = { agg with Min := 0, Max := 0 } := by
  simp [finishAgg, h]

lemma finishAgg_pos (agg : AggregatedHourStats) (h : agg.SampleDays ≠ 0) :
    finishAgg agg =
      { agg with
        Average := agg.Values.foldl (fun acc v => acc + v) 0 / (agg.Values.length : ℚ)
        Median := CalculateMedian agg.Values
        StdDev := CalculateStdDev agg.Values
          (agg.Values.foldl (fun acc v => acc + v) 0 / (agg.Values.length : ℚ)) } := by
  simp [finishAgg, h]

lemma dayFold_spec (i : Fin 24) :
    ∀ (days : List DailyStats) (a : AggregatedHourStats),
      (days.foldl (fun x day => dayStep x (day.Hours i)) a).SampleDays =
          a.SampleDays + (days.filter (fun d => contributesB d i)).length ∧
      (days.foldl (fun x day => dayStep x (day.Hours i)) a).Values =
          a.Values ++
            (days.filter (fun d => contributesB d i)).map (fun d => meanAt d i) ∧
      (days.foldl (fun x day => dayStep x (day.Hours i)) a).Min =
          ((days.filter (fun d => contributesB d i)).map
            (fun d => minAt d i)).foldl min a.Min ∧
      (days.foldl (fun x day => dayStep x (day.Hours i)) a).Max =
          ((days.filter (fun d => contributesB d i)).map
            (fun d => maxAt d i)).foldl max a.Max ∧
      (days.foldl (fun x day => dayStep x (day.Hours i)) a).Average = a.Average ∧
      (days.foldl (fun x day => dayStep x (day.Hours i)) a).Median = a.Median ∧
      (days.foldl (fun x day => dayStep x (day.Hours i)) a).StdDev = a.StdDev ∧
      (days.foldl (fun x day => dayStep x (day.Hours i)) a).Hour = a.Hour
  | [], a => by simp
  | d :: days, a => by
    rw [List.foldl_cons]
    rcases hd : d.Hours i with _ | hs
    · have hc : contributesB d i = false := by
        simp [contributesB, sampleCount, hd]
      have hstep : dayStep a none = a := rfl
      rw [hstep]
      simp only [List.filter_cons, hc, Bool.false_eq_true, if_false]
      exact dayFold_spec i days a
    · by_cases h0 : hs.Samples = 0
      · have hc : contributesB d i = false := by
          simp [contributesB, sampleCount, hd, h0]
        have hstep : dayStep a (some hs) = a := by
          simp [dayStep, h0]
        rw [hstep]
        simp only [List.filter_cons, hc, Bool.false_eq_true, if_false]
        exact dayFold_spec i days a
      · have hc : contributesB d i = true := by
          simp [contributesB, sampleCount, hd, Nat.pos_of_ne_zero h0]
        have hstep : dayStep a (some hs) =
            { a with
              SampleDays := a.SampleDays + 1
              Min := if hs.Min < a.Min then hs.Min else a.Min
              Max := if hs.Max > a.Max then hs.Max else a.Max
              Values := a.Values ++ [hs.Mean] } := by
          simp [dayStep, h0]
        obtain ⟨g1, g2, g3, g4, g5, g6, g7, g8⟩ :=
          dayFold_spec i days (dayStep a (some hs))
        simp only [List.filter_cons, hc, if_true]
        refine ⟨?_, ?_, ?_, ?_, ?_, ?_, ?_, ?_⟩
        · rw [g1, hstep]
          simp
          omega
        · rw [g2, hstep]
          simp [meanAt, hd]
        · rw [g3, hstep]
          simp [minAt, hd, ite_lt_eq_min]
        · rw [g4, hstep]
          simp [maxAt, hd, ite_gt_eq_max]
        · rw [g5, hstep]
        · rw [g6, hstep]
        · rw [g7, hstep]
        · rw [g8, hstep]

/-! Peak scan lemmas -/

/-- Characterization of the running-maximum scan: over a strictly
increasing hour list whose skipped (zero-day) hours carry average `0`, the
final state `(M, h, p)` has `p = M ≥ 0`, `M` bounds every scanned average,
and either no average ever exceeded the initial `0` (state still
`(0, 0, 0)`) or `h` is the first scanned hour attaining `M`. -/
lemma peakScan_spec (byHour : Fin 24 → AggregatedHourStats)
    (hz : ∀ i, (byHour i).SampleDays = 0 → (byHour i).Average = 0) :
    ∀ l : List (Fin 24), l.Pairwise (· < ·) →
      0 ≤ (peakScan byHour l).1 ∧
      (peakScan byHour l).2.2 = (peakScan byHour l).1 ∧
      (∀ i ∈ l, (byHour i).Average ≤ (peakScan byHour l).1) ∧
      (((peakScan byHour l).1 = 0 ∧ (peakScan byHour l).2.1 = 0) ∨
        (0 < (peakScan byHour l).1 ∧
          ∃ j ∈ l, j.val = (peakScan byHour l).2.1 ∧
            (byHour j).Average = (peakScan byHour l).1 ∧
            ∀ i ∈ l, i.val < (peakScan byHour l).2.1 →
              (byHour i).Average < (peakScan byHour l).1)) := by
  intro l
  induction l using List.reverseRecOn with
  | nil =>
    intro _
    exact ⟨le_refl 0, rfl, by simp, Or.inl ⟨rfl, rfl⟩⟩
  | append_singleton l x ih =>
    intro hp
    rw [List.pairwise_append] at hp
    have hlx : ∀ a ∈ l, a < x := fun a ha => hp.2.2 a ha x (List.mem_singleton.mpr rfl)
    obtain ⟨hM0, hpM, hub, hdisj⟩ := ih hp.1
    have hfold : peakScan byHour (l ++ [x]) =
        peakStep byHour (peakScan byHour l) x := by
      rw [peakScan, peakScan, List.foldl_append, List.foldl_cons, List.foldl_nil]
    by_cases h0 : (byHour x).SampleDays = 0
    · have hstep : peakStep byHour (peakScan byHour l) x = peakScan byHour l := by
        rw [peakStep, if_pos h0]
      rw [hfold, hstep]
      refine ⟨hM0, hpM, ?_, ?_⟩
      · intro i hi
        rcases List.mem_append.mp hi with h | h
        · exact hub i h
        · rw [List.mem_singleton.mp h, hz x h0]
          exact hM0
      · rcases hdisj with h | ⟨hM, j, hj, hjv, hjf, htie⟩
        · exact Or.inl h
        · refine Or.inr ⟨hM, j, List.mem_append_left _ hj, hjv, hjf, ?_⟩
          intro i hi hlt
          rcases List.mem_append.mp hi with h | h
          · exact htie i h hlt
          · rw [List.mem_singleton.mp h] at hlt
            have : j < x := hlx j hj
            omega
    · by_cases hgt : (byHour x).Average > (peakScan byHour l).1
      · have hstep : peakStep byHour (peakScan byHour l) x =
            ((byHour x).Average, x.val, (byHour x).Average) := by
          rw [peakStep, if_neg h0, if_pos hgt]
        rw [hfold, hstep]
        have hxpos : 0 < (byHour x).Average := lt_of_le_of_lt hM0 hgt
        refine ⟨hxpos.le, rfl, ?_, ?_⟩
        · intro i hi
          rcases List.mem_append.mp hi with h | h
          · exact le_of_lt (lt_of_le_of_lt (hub i h) hgt)
          · rw [List.mem_singleton.mp h]
        · refine Or.inr ⟨hxpos, x, List.mem_append_right _ (List.mem_singleton.mpr rfl),
            rfl, rfl, ?_⟩
          intro i hi hlt
          rcases List.mem_append.mp hi with h | h
          · exact lt_of_le_of_lt (hub i h) hgt
          · rw [List.mem_singleton.mp h] at hlt
            simp at hlt
      · have hstep : peakStep byHour (peakScan byHour l) x = peakScan byHour l := by
          rw [peakStep, if_neg h0, if_neg hgt]
        rw [hfold, hstep]
        refine ⟨hM0, hpM, ?_, ?_⟩
        · intro i hi
          rcases List.mem_append.mp hi with h | h
          · exact hub i h
          · rw [List.mem_singleton.mp h]
            exact not_lt.mp hgt
        · rcases hdisj with h | ⟨hM, j, hj, hjv, hjf, htie⟩
          · exact Or.inl h
          · refine Or.inr ⟨hM, j, List.mem_append_left _ hj, hjv, hjf, ?_⟩
            intro i hi hlt
            rcases List.mem_append.mp hi with h | h
            · exact htie i h hlt
            · rw [List.mem_singleton.mp h] at hlt
              have : j < x := hlx j hj
              omega

/-! `GetHourlyRows` lemmas -/

lemma foldl_append_gen {α β : Type} (g : α → List β) :
    ∀ (l : List α) (acc : List β),
      l.foldl (fun rs x => rs ++ g x) acc = acc ++ l.flatMap g
  | [], acc => by simp
  | x :: l, acc => by
    rw [List.foldl_cons, foldl_append_gen g l (acc ++ g x)]
    simp [List.append_assoc]

lemma innerStep_eq (day : DailyStats) :
    (fun (rs : List HourlyRow) (i : Fin 24) =>
      match day.Hours i with
      | none => rs
      | some h => rs ++ [mkRow day i h]) =
    fun (rs : List HourlyRow) (i : Fin 24) => rs ++ rowOpt day i := by
  funext rs i
  rcases h : day.Hours i with _ | b <;> simp [rowOpt, h]

lemma rows_fold :
    ∀ (days : List DailyStats) (acc : List HourlyRow),
      days.foldl
        (fun rows day =>
          (List.finRange 24).foldl
            (fun rs i =>
              match day.Hours i with
              | none => rs
              | some h => rs ++ [mkRow day i h]) rows) acc =
        acc ++ days.flatMap (fun day => (List.finRange 24).flatMap (rowOpt day))
  | [], acc => by simp
  | d :: days, acc => by
    rw [List.foldl_cons, rows_fold days _, innerStep_eq d, foldl_append_gen]
    simp [List.append_assoc]

lemma getHourlyRows_eq (days : List DailyStats) :
    GetHourlyRows days =
      days.flatMap (fun day => (List.finRange 24).flatMap (rowOpt day)) := by
  rw [GetHourlyRows, rows_fold days []]
  simp

/-! Standard deviation and median lemmas -/

lemma calculateStdDev_eq_spec (values : List ℚ) (mean : ℚ) :
    CalculateStdDev values mean = stdDevSpec values mean := by
  rw [CalculateStdDev, stdDevSpec]
  by_cases h : values.length < 2
  · rw [if_pos h, if_pos h]
  · rw [if_neg h, if_neg h]
    have hmap : (values.map fun v => (v - mean) ^ 2) =
        values.map fun v => (v - mean) * (v - mean) := by
      apply List.map_congr_left
      intro v _
      rw [pow_two]
    have hden : ((values.length - 1 : ℕ) : ℚ) = (values.length : ℚ) - 1 := by
      have h1 : 1 ≤ values.length := by omega
      rw [Nat.cast_sub h1, Nat.cast_one]
    rw [hmap, foldl_add_eq (fun v => (v - mean) * (v - mean)) values 0, zero_add, hden]

lemma foldl_add_id : ∀ (l : List ℚ) (a : ℚ), l.foldl (fun acc v => acc + v) a = a + l.sum
  | [], a => by simp
  | x :: l, a => by
    rw [List.foldl_cons, foldl_add_id l (a + x)]
    simp [add_assoc]

/-- The sorted-permutation characterization of `CalculateMedian`:
the median is read off a sorted permutation of the input at the middle
position(s). -/
lemma calculateMedian_spec (values : List ℚ) :
    ∃ s : List ℚ, s.Perm values ∧ s.Sorted (· ≤ ·) ∧
      CalculateMedian values =
        (if s.length % 2 = 0 then
          (s.getD (s.length / 2 - 1) 0 + s.getD (s.length / 2) 0) / 2
        else s.getD (s.length / 2) 0) := by
  refine ⟨values.insertionSort (· ≤ ·), List.perm_insertionSort _ _,
    List.sorted_insertionSort _ _, ?_⟩
  rw [CalculateMedian]
  by_cases h : values.length = 0
  · rw [if_pos h]
    have hv : values = [] := List.length_eq_zero.mp h
    subst hv
    simp [List.insertionSort]
  · rw [if_neg h]

/-! Remaining `AggregateDays` helpers -/

lemma finishAgg_sampleDays (agg : AggregatedHourStats) :
    (finishAgg agg).SampleDays = agg.SampleDays := by
  by_cases h : agg.SampleDays = 0
  · rw [finishAgg_zero agg h]
  · rw [finishAgg_pos agg h]

lemma finishAgg_values (agg : AggregatedHourStats) :
    (finishAgg agg).Values = agg.Values := by
  by_cases h : agg.SampleDays = 0
  · rw [finishAgg_zero agg h]
  · rw [finishAgg_pos agg h]

/-- Hours with no contributing day keep the zero average they were created
with: the accumulation loop never writes `Average` and the finalization
loop skips them. -/
lemma hz_avg (d0 : DailyStats) (rest : List DailyStats) :
    ∀ i, ((AggregateDaysCore d0 rest).ByHour i).SampleDays = 0 →
      ((AggregateDaysCore d0 rest).ByHour i).Average = 0 := by
  intro i h
  rw [byHour_eq] at h ⊢
  have hsd :
      ((d0 :: rest).foldl (fun a day => dayStep a (day.Hours i))
        (emptyAgg i)).SampleDays = 0 := by
    rw [← finishAgg_sampleDays]
    exact h
  rw [finishAgg_zero _ hsd]
  obtain ⟨_, _, _, _, g5, _, _, _⟩ := dayFold_spec i (d0 :: rest) (emptyAgg i)
  show ((d0 :: rest).foldl (fun a day => dayStep a (day.Hours i))
    (emptyAgg i)).Average = 0
  rw [g5]
  rfl

/-- Extracting the per-bucket float-range bounds from `dayBounded`. -/
lemma dayBounded_min (d : DailyStats) (hd : dayBounded d = true) (i : Fin 24)
    (hs : HourlyStats) (hh : d.Hours i = some hs) :
    hs.Min ≤ maxFloat64 ∧ -maxFloat64 ≤ hs.Max := by
  rw [dayBounded, List.all_eq_true] at hd
  have h := hd i (List.mem_finRange i)
  rw [hh] at h
  simpa using h

/-! Claim theorems -/

/-- C3: a HourBucket to which zero values were added has, after finalize,
`min = 0`, `max = 0`, `mean = 0` and `stddev = 0`; the internal
`±MaxFloat64` sentinels are not observable after finalize. -/
theorem claim_C3 (hr : ℕ) :
    ((NewHourlyStats hr).Finalize).Min = 0 ∧
    ((NewHourlyStats hr).Finalize).Max = 0 ∧
    ((NewHourlyStats hr).Finalize).Mean = 0 ∧
    ((NewHourlyStats hr).Finalize).StdDev = 0 := by
  rw [finalize_zero _ rfl]
  exact ⟨rfl, rfl, rfl, rfl⟩

/-- C5: `CalculateMedian` reads the median off a sorted permutation of its
input — the exact middle for odd length, the mean of the two middle values
for even length, `0` for the empty list — and in particular
`median [1,3,5] = 3`, `median [1,2,3,4] = 2.5`, `median [5,2,8,1,9] = 5`. -/
theorem claim_C5 (values : List ℚ) :
    (∃ s : List ℚ, s.Perm values ∧ s.Sorted (· ≤ ·) ∧
      CalculateMedian values =
        (if s.length % 2 = 0 then
          (s.getD (s.length / 2 - 1) 0 + s.getD (s.length / 2) 0) / 2
        else s.getD (s.length / 2) 0)) ∧
    CalculateMedian [] = 0 ∧
    CalculateMedian [1, 3, 5] = 3 ∧
    CalculateMedian [1, 2, 3, 4] = 5 / 2 ∧
    CalculateMedian [5, 2, 8, 1, 9] = 5 := by
  refine ⟨calculateMedian_spec values, rfl, by decide, ?_, by decide⟩
  with_unfolding_all decide

/-- C4: `CalculateStdDev` is `0` for fewer than two values and otherwise
the Bessel-corrected (`n - 1` denominator) sample standard deviation of
the spec's formula; the same function computes the finalized bucket
stddev and the cross-day aggregate stddev, and on `[2,4,4,4,5,5,7,9]`
with mean `5` it yields `√(32/7) ≈ 2.138`. -/
theorem claim_C4 (values : List ℚ) (mean : ℚ) (b : HourlyStats)
    (hb : b.Samples ≠ 0) (d0 : DailyStats) (rest : List DailyStats) (i : Fin 24)
    (hsd : ((AggregateDaysCore d0 rest).ByHour i).SampleDays ≠ 0) :
    CalculateStdDev values mean = stdDevSpec values mean ∧
    (b.Finalize).StdDev = CalculateStdDev b.Values ((b.Finalize).Mean) ∧
    ((AggregateDaysCore d0 rest).ByHour i).StdDev =
      CalculateStdDev ((AggregateDaysCore d0 rest).ByHour i).Values
        ((AggregateDaysCore d0 rest).ByHour i).Average ∧
    CalculateStdDev [2, 4, 4, 4, 5, 5, 7, 9] 5 = Real.sqrt (32 / 7) := by
  refine ⟨calculateStdDev_eq_spec values mean, ?_, ?_, ?_⟩
  · rw [finalize_pos b hb]
  · rw [byHour_eq] at hsd ⊢
    have hk :
        ((d0 :: rest).foldl (fun a day => dayStep a (day.Hours i))
          (emptyAgg i)).SampleDays ≠ 0 := by
      rw [← finishAgg_sampleDays]
      exact hsd
    rw [finishAgg_pos _ hk]
  · rw [CalculateStdDev, if_neg (by norm_num)]
    have hnum :
        (([2, 4, 4, 4, 5, 5, 7, 9] : List ℚ).foldl
          (fun acc v => acc + (v - 5) * (v - 5)) 0) = 32 := by
      norm_num [List.foldl]
    have hden : ((([2, 4, 4, 4, 5, 5, 7, 9] : List ℚ).length - 1 : ℕ) : ℚ) = 7 := by
      norm_num
    rw [hnum, hden]
    norm_num

/-- C4 witness: the three hypotheses discharged at concrete inputs. -/
theorem claim_C4_witness :
    CalculateStdDev [1, 3] 2 = stdDevSpec [1, 3] 2 ∧
    (wBucket1.Finalize).StdDev =
      CalculateStdDev wBucket1.Values ((wBucket1.Finalize).Mean) ∧
    ((AggregateDaysCore wDay1 [wDay2]).ByHour 12).StdDev =
      CalculateStdDev ((AggregateDaysCore wDay1 [wDay2]).ByHour 12).Values
        ((AggregateDaysCore wDay1 [wDay2]).ByHour 12).Average ∧
    CalculateStdDev [2, 4, 4, 4, 5, 5, 7, 9] 5 = Real.sqrt (32 / 7) :=
  claim_C4 [1, 3] 2 wBucket1 (by decide) wDay1 [wDay2] 12 (by decide)

/-- C9: after any finite sequence of `AddValue` calls on a fresh bucket and
before finalize, `Samples` is the number of values, `Sum` their sum,
`Values` the value list itself, and — for a non-empty, float-range-bounded
value list — `Min` and `Max` are the minimum and maximum of the values. -/
theorem claim_C9 (hr : ℕ) (vs : List ℚ)
    (hbound : ∀ v ∈ vs, -maxFloat64 ≤ v ∧ v ≤ maxFloat64) :
    (vs.foldl HourlyStats.AddValue (NewHourlyStats hr)).Samples = vs.length ∧
    (vs.foldl HourlyStats.AddValue (NewHourlyStats hr)).Sum = vs.sum ∧
    (vs.foldl HourlyStats.AddValue (NewHourlyStats hr)).Values = vs ∧
    (vs ≠ [] →
      ((vs.foldl HourlyStats.AddValue (NewHourlyStats hr)).Min ∈ vs ∧
        ∀ v ∈ vs, (vs.foldl HourlyStats.AddValue (NewHourlyStats hr)).Min ≤ v) ∧
      ((vs.foldl HourlyStats.AddValue (NewHourlyStats hr)).Max ∈ vs ∧
        ∀ v ∈ vs, v ≤ (vs.foldl HourlyStats.AddValue (NewHourlyStats hr)).Max)) := by
  obtain ⟨h1, h2, h3, h4, h5⟩ := addValue_fold vs (NewHourlyStats hr)
  refine ⟨by simpa [NewHourlyStats] using h1, by simpa [NewHourlyStats] using h2,
    by simpa [NewHourlyStats] using h3, ?_⟩
  intro hne
  constructor
  · rw [h4]
    exact foldl_min_spec vs maxFloat64 hne (fun v hv => (hbound v hv).2)
  · rw [h5]
    exact foldl_max_spec vs (-maxFloat64) hne (fun v hv => (hbound v hv).1)

/-- C9 witness: the bound and non-emptiness hypotheses discharged on the
concrete value list `[3, 1, 2]`. -/
theorem claim_C9_witness :
    (([3, 1, 2] : List ℚ).foldl HourlyStats.AddValue (NewHourlyStats 6)).Samples =
        ([3, 1, 2] : List ℚ).length ∧
    (([3, 1, 2] : List ℚ).foldl HourlyStats.AddValue (NewHourlyStats 6)).Sum =
        ([3, 1, 2] : List ℚ).sum ∧
    (([3, 1, 2] : List ℚ).foldl HourlyStats.AddValue (NewHourlyStats 6)).Values =
        [3, 1, 2] ∧
    (([3, 1, 2] : List ℚ) ≠ [] →
      ((([3, 1, 2] : List ℚ).foldl HourlyStats.AddValue (NewHourlyStats 6)).Min ∈
          ([3, 1, 2] : List ℚ) ∧
        ∀ v ∈ ([3, 1, 2] : List ℚ),
          (([3, 1, 2] : List ℚ).foldl HourlyStats.AddValue (NewHourlyStats 6)).Min ≤ v) ∧
      ((([3, 1, 2] : List ℚ).foldl HourlyStats.AddValue (NewHourlyStats 6)).Max ∈
          ([3, 1, 2] : List ℚ) ∧
        ∀ v ∈ ([3, 1, 2] : List ℚ),
          v ≤ (([3, 1, 2] : List ℚ).foldl HourlyStats.AddValue (NewHourlyStats 6)).Max)) :=
  claim_C9 6 [3, 1, 2] (by decide)

/-- C10: `CalculateMedian`, modelled at the slice level, returns its
argument slice unchanged (it sorts a private copy), computes the same
median as the value-level function, and consequently the per-day-means
list of every `AggregatedHourStats` is still in day (insertion) order
after median computation. -/
theorem claim_C10 (values : List ℚ) (d0 : DailyStats) (rest : List DailyStats)
    (i : Fin 24) :
    (CalculateMedianGo values).2 = values ∧
    (CalculateMedianGo values).1 = CalculateMedian values ∧
    ((AggregateDaysCore d0 rest).ByHour i).Values = contribMeans (d0 :: rest) i := by
  refine ⟨?_, ?_, ?_⟩
  · rw [CalculateMedianGo]
    by_cases h : values.length = 0
    · rw [if_pos h]
    · rw [if_neg h]
  · rw [CalculateMedianGo, CalculateMedian]
    by_cases h : values.length = 0
    · rw [if_pos h, if_pos h]
    · rw [if_neg h, if_neg h]
  · rw [byHour_eq, finishAgg_values]
    obtain ⟨_, g2, _⟩ := dayFold_spec i (d0 :: rest) (emptyAgg i)
    rw [g2]
    show ([] : List ℚ) ++ _ = _
    rw [List.nil_append]
    rfl

/-- C1 counterexample: a non-empty sample list whose only sample has the
invalid hour `24` still produces a `DailyStats` — `AggregateToHourly` does
not return `nil` on an entirely-invalid-hour input set, only on an empty
one. -/
theorem claim_C1_counterexample :
    AggregateToHourly [badSample] ≠ none ∧
    ¬(0 ≤ badSample.Hour ∧ badSample.Hour < 24) := by
  constructor
  · simp [AggregateToHourly]
  · decide

/-- C1 amended: `AggregateToHourly` returns `nil` exactly on the empty
sample list; a non-empty list, even one whose samples all have invalid
hours, yields a `DailyStats` whose 24 buckets all have zero samples.
`AggregateDays` returns `nil` on the empty day list.  Neither signals an
error. -/
theorem claim_C1 (data : List ParsedPowerData) :
    AggregateToHourly [] = none ∧
    AggregateDays [] = none ∧
    (data ≠ [] → (AggregateToHourly data).isSome = true) ∧
    (data ≠ [] → (∀ p ∈ data, ¬(0 ≤ p.Hour ∧ p.Hour < 24)) →
      ∃ ds, AggregateToHourly data = some ds ∧
        ∀ i : Fin 24, ds.Hours i = some ((NewHourlyStats i.val).Finalize) ∧
          sampleCount (ds.Hours i) = 0) := by
  refine ⟨rfl, rfl, ?_, ?_⟩
  · intro hne
    rcases data with _ | ⟨p, rest⟩
    · exact absurd rfl hne
    · rfl
  · intro hne hinv
    rcases data with _ | ⟨p, rest⟩
    · exact absurd rfl hne
    · refine ⟨_, rfl, ?_⟩
      intro i
      have hfill : (p :: rest).foldl fillStep startHours = startHours :=
        fill_invalid (p :: rest) startHours hinv
      constructor
      · show (((p :: rest).foldl fillStep startHours) i).map HourlyStats.Finalize = _
        rw [hfill]
        rfl
      · show sampleCount
          ((((p :: rest).foldl fillStep startHours) i).map HourlyStats.Finalize) = 0
        rw [hfill]
        show ((NewHourlyStats i.val).Finalize).Samples = 0
        rw [finalize_zero _ rfl]
        rfl

/-- C1 witness: the non-emptiness and all-invalid-hour hypotheses
discharged on the one-sample list `[badSample]`. -/
theorem claim_C1_witness :
    (AggregateToHourly [badSample]).isSome = true ∧
    ∃ ds, AggregateToHourly [badSample] = some ds ∧
      ∀ i : Fin 24, ds.Hours i = some ((NewHourlyStats i.val).Finalize) ∧
        sampleCount (ds.Hours i) = 0 :=
  ⟨(claim_C1 [badSample]).2.2.1 (List.cons_ne_nil _ _),
   (claim_C1 [badSample]).2.2.2 (List.cons_ne_nil _ _) (by decide)⟩

/-- C2 counterexample: a day whose 24 buckets are present but all hold zero
samples yields 24 rows, none of which has `sample_count > 0` — so a row
appears for a (date, hour) even when the hour has no recorded data,
contradicting the claimed "row iff sample_count > 0". -/
theorem claim_C2_counterexample :
    (GetHourlyRows [zeroDay]).length = 24 ∧
    ((GetHourlyRows [zeroDay]).filter (fun r => decide (0 < r.Samples))).length = 0 := by
  constructor
  · decide
  · decide

/-- C2 amended: the row view contains exactly one row per (day, hour) slot
whose bucket is present (non-`nil`), regardless of its sample count; the
row carries that bucket's date, hour, min, max, mean and sample count. -/
theorem claim_C2 (days : List DailyStats) (r : HourlyRow) :
    r ∈ GetHourlyRows days ↔
      ∃ day ∈ days, ∃ i : Fin 24, ∃ hs, day.Hours i = some hs ∧ r = mkRow day i hs := by
  rw [getHourlyRows_eq]
  simp only [List.mem_flatMap]
  constructor
  · rintro ⟨day, hday, i, _, hr⟩
    rcases h : day.Hours i with _ | b
    · simp [rowOpt, h] at hr
    · simp only [rowOpt, h, List.mem_singleton] at hr
      exact ⟨day, hday, i, b, h, hr⟩
  · rintro ⟨day, hday, i, b, h, rfl⟩
    exact ⟨day, hday, i, List.mem_finRange i, by simp [rowOpt, h]⟩

/-- C6: a day contributes to hour `i` iff its bucket for `i` has
`sample_count > 0`; `sample_day_count` is the number of contributing days;
the aggregate min/max are the min of contributing days' bucket minimums
and the max of their bucket maximums (raw per-sample extremes); average,
median and stddev are computed over the contributing days' hourly means;
and with no contributor min/max normalize to `0`. -/
theorem claim_C6 (d0 : DailyStats) (rest : List DailyStats) (i : Fin 24)
    (hb : ∀ day ∈ d0 :: rest, dayBounded day = true) :
    ((AggregateDaysCore d0 rest).ByHour i).SampleDays =
        (contribDays (d0 :: rest) i).length ∧
    ((contribDays (d0 :: rest) i).length = 0 →
      ((AggregateDaysCore d0 rest).ByHour i).Min = 0 ∧
      ((AggregateDaysCore d0 rest).ByHour i).Max = 0) ∧
    (0 < (contribDays (d0 :: rest) i).length →
      (((AggregateDaysCore d0 rest).ByHour i).Min ∈ contribMins (d0 :: rest) i ∧
        ∀ v ∈ contribMins (d0 :: rest) i,
          ((AggregateDaysCore d0 rest).ByHour i).Min ≤ v) ∧
      (((AggregateDaysCore d0 rest).ByHour i).Max ∈ contribMaxs (d0 :: rest) i ∧
        ∀ v ∈ contribMaxs (d0 :: rest) i,
          v ≤ ((AggregateDaysCore d0 rest).ByHour i).Max) ∧
      ((AggregateDaysCore d0 rest).ByHour i).Average =
        (contribMeans (d0 :: rest) i).sum /
          ((contribMeans (d0 :: rest) i).length : ℚ) ∧
      ((AggregateDaysCore d0 rest).ByHour i).Median =
        CalculateMedian (contribMeans (d0 :: rest) i) ∧
      ((AggregateDaysCore d0 rest).ByHour i).StdDev =
        CalculateStdDev (contribMeans (d0 :: rest) i)
          ((AggregateDaysCore d0 rest).ByHour i).Average) := by
  obtain ⟨g1, g2, g3, g4, g5, g6, g7, g8⟩ := dayFold_spec i (d0 :: rest) (emptyAgg i)
  have hby := byHour_eq d0 rest i
  have hminb : ∀ v ∈ contribMins (d0 :: rest) i, v ≤ maxFloat64 := by
    intro v hv
    rw [contribMins, List.mem_map] at hv
    obtain ⟨d, hd, rfl⟩ := hv
    have hdd : d ∈ d0 :: rest := List.mem_of_mem_filter hd
    have hcon := List.of_mem_filter hd
    rcases hh : d.Hours i with _ | hs
    · simp [contributesB, sampleCount, hh] at hcon
    · have := (dayBounded_min d (hb d hdd) i hs hh).1
      rw [minAt, hh]
      exact this
  have hmaxb : ∀ v ∈ contribMaxs (d0 :: rest) i, -maxFloat64 ≤ v := by
    intro v hv
    rw [contribMaxs, List.mem_map] at hv
    obtain ⟨d, hd, rfl⟩ := hv
    have hdd : d ∈ d0 :: rest := List.mem_of_mem_filter hd
    have hcon := List.of_mem_filter hd
    rcases hh : d.Hours i with _ | hs
    · simp [contributesB, sampleCount, hh] at hcon
    · have := (dayBounded_min d (hb d hdd) i hs hh).2
      rw [maxAt, hh]
      exact this
  have hsd : ((d0 :: rest).foldl (fun a day => dayStep a (day.Hours i))
      (emptyAgg i)).SampleDays = (contribDays (d0 :: rest) i).length := by
    rw [g1]
    show 0 + _ = _
    rw [Nat.zero_add]
    rfl
  refine ⟨?_, ?_, ?_⟩
  · rw [hby, finishAgg_sampleDays, hsd]
  · intro h0
    have hz : ((d0 :: rest).foldl (fun a day => dayStep a (day.Hours i))
        (emptyAgg i)).SampleDays = 0 := by rw [hsd, h0]
    rw [hby, finishAgg_zero _ hz]
    exact ⟨rfl, rfl⟩
  · intro hpos
    have hnz : ((d0 :: rest).foldl (fun a day => dayStep a (day.Hours i))
        (emptyAgg i)).SampleDays ≠ 0 := by
      rw [hsd]
      omega
    have hvals : ((d0 :: rest).foldl (fun a day => dayStep a (day.Hours i))
        (emptyAgg i)).Values = contribMeans (d0 :: rest) i := by
      rw [g2]
      rfl
    have hminsne : contribMins (d0 :: rest) i ≠ [] := by
      have : (contribMins (d0 :: rest) i).length =
          (contribDays (d0 :: rest) i).length := by
        rw [contribMins, List.length_map]
      intro hnil
      rw [hnil] at this
      simp at this
      omega
    have hmaxsne : contribMaxs (d0 :: rest) i ≠ [] := by
      have : (contribMaxs (d0 :: rest) i).length =
          (contribDays (d0 :: rest) i).length := by
        rw [contribMaxs, List.length_map]
      intro hnil
      rw [hnil] at this
      simp at this
      omega
    rw [hby, finishAgg_pos _ hnz]
    refine ⟨?_, ?_, ?_, ?_, ?_⟩
    · show ((d0 :: rest).foldl (fun a day => dayStep a (day.Hours i))
          (emptyAgg i)).Min ∈ contribMins (d0 :: rest) i ∧
        ∀ v ∈ contribMins (d0 :: rest) i,
          ((d0 :: rest).foldl (fun a day => dayStep a (day.Hours i))
            (emptyAgg i)).Min ≤ v
      rw [g3]
      exact foldl_min_spec _ _ hminsne hminb
    · show ((d0 :: rest).foldl (fun a day => dayStep a (day.Hours i))
          (emptyAgg i)).Max ∈ contribMaxs (d0 :: rest) i ∧
        ∀ v ∈ contribMaxs (d0 :: rest) i,
          v ≤ ((d0 :: rest).foldl (fun a day => dayStep a (day.Hours i))
            (emptyAgg i)).Max
      rw [g4]
      exact foldl_max_spec _ _ hmaxsne hmaxb
    · show ((d0 :: rest).foldl (fun a day => dayStep a (day.Hours i))
          (emptyAgg i)).Values.foldl (fun acc v => acc + v) 0 /
            ((((d0 :: rest).foldl (fun a day => dayStep a (day.Hours i))
              (emptyAgg i)).Values.length : ℕ) : ℚ) =
          (contribMeans (d0 :: rest) i).sum /
            ((contribMeans (d0 :: rest) i).length : ℚ)
      rw [hvals, foldl_add_id, zero_add]
    · show CalculateMedian ((d0 :: rest).foldl (fun a day => dayStep a (day.Hours i))
          (emptyAgg i)).Values = CalculateMedian (contribMeans (d0 :: rest) i)
      rw [hvals]
    · show CalculateStdDev ((d0 :: rest).foldl (fun a day => dayStep a (day.Hours i))
            (emptyAgg i)).Values
          (((d0 :: rest).foldl (fun a day => dayStep a (day.Hours i))
            (emptyAgg i)).Values.foldl (fun acc v => acc + v) 0 /
              ((((d0 :: rest).foldl (fun a day => dayStep a (day.Hours i))
                (emptyAgg i)).Values.length : ℕ) : ℚ)) =
          CalculateStdDev (contribMeans (d0 :: rest) i)
            (((d0 :: rest).foldl (fun a day => dayStep a (day.Hours i))
              (emptyAgg i)).Values.foldl (fun acc v => acc + v) 0 /
                ((((d0 :: rest).foldl (fun a day => dayStep a (day.Hours i))
                  (emptyAgg i)).Values.length : ℕ) : ℚ))
      rw [hvals]

/-- C6 witness: the float-range-bound and non-empty-contributor hypotheses
discharged on two concrete days contributing to hour 12. -/
theorem claim_C6_witness :
    ((AggregateDaysCore wDay1 [wDay2]).ByHour 12).SampleDays =
        (contribDays [wDay1, wDay2] 12).length ∧
    ((contribDays [wDay1, wDay2] 12).length = 0 →
      ((AggregateDaysCore wDay1 [wDay2]).ByHour 12).Min = 0 ∧
      ((AggregateDaysCore wDay1 [wDay2]).ByHour 12).Max = 0) ∧
    (0 < (contribDays [wDay1, wDay2] 12).length →
      (((AggregateDaysCore wDay1 [wDay2]).ByHour 12).Min ∈ contribMins [wDay1, wDay2] 12 ∧
        ∀ v ∈ contribMins [wDay1, wDay2] 12,
          ((AggregateDaysCore wDay1 [wDay2]).ByHour 12).Min ≤ v) ∧
      (((AggregateDaysCore wDay1 [wDay2]).ByHour 12).Max ∈ contribMaxs [wDay1, wDay2] 12 ∧
        ∀ v ∈ contribMaxs [wDay1, wDay2] 12,
          v ≤ ((AggregateDaysCore wDay1 [wDay2]).ByHour 12).Max) ∧
      ((AggregateDaysCore wDay1 [wDay2]).ByHour 12).Average =
        (contribMeans [wDay1, wDay2] 12).sum /
          ((contribMeans [wDay1, wDay2] 12).length : ℚ) ∧
      ((AggregateDaysCore wDay1 [wDay2]).ByHour 12).Median =
        CalculateMedian (contribMeans [wDay1, wDay2] 12) ∧
      ((AggregateDaysCore wDay1 [wDay2]).ByHour 12).StdDev =
        CalculateStdDev (contribMeans [wDay1, wDay2] 12)
          ((AggregateDaysCore wDay1 [wDay2]).ByHour 12).Average) :=
  claim_C6 wDay1 [wDay2] 12 (by decide)

/-- C7: the peak hour is found by the strict-greater-than forward scan with
a running maximum starting at `0`: if no hour's cross-day average exceeds
`0`, peak hour and peak average stay `0`; otherwise the peak average is
attained at the reported peak hour, bounds every hour's average, and every
hour strictly before the peak hour is strictly below it (lowest hour wins
ties). -/
theorem claim_C7 (d0 : DailyStats) (rest : List DailyStats) :
    ((∀ i : Fin 24, ((AggregateDaysCore d0 rest).ByHour i).Average ≤ 0) →
      (AggregateDaysCore d0 rest).PeakHour = 0 ∧
      (AggregateDaysCore d0 rest).PeakPowerAvg = 0) ∧
    ((∃ i : Fin 24, 0 < ((AggregateDaysCore d0 rest).ByHour i).Average) →
      ∃ j : Fin 24, j.val = (AggregateDaysCore d0 rest).PeakHour ∧
        ((AggregateDaysCore d0 rest).ByHour j).Average =
          (AggregateDaysCore d0 rest).PeakPowerAvg ∧
        (∀ i : Fin 24, ((AggregateDaysCore d0 rest).ByHour i).Average ≤
          (AggregateDaysCore d0 rest).PeakPowerAvg) ∧
        (∀ i : Fin 24, i.val < (AggregateDaysCore d0 rest).PeakHour →
          ((AggregateDaysCore d0 rest).ByHour i).Average <
            (AggregateDaysCore d0 rest).PeakPowerAvg)) := by
  have hz := hz_avg d0 rest
  obtain ⟨hM0, hpM, hub, hdisj⟩ :=
    peakScan_spec ((AggregateDaysCore d0 rest).ByHour) hz (List.finRange 24)
      (List.pairwise_lt_finRange 24)
  have hPH : (AggregateDaysCore d0 rest).PeakHour =
      (peakScan ((AggregateDaysCore d0 rest).ByHour) (List.finRange 24)).2.1 := rfl
  have hPA : (AggregateDaysCore d0 rest).PeakPowerAvg =
      (peakScan ((AggregateDaysCore d0 rest).ByHour) (List.finRange 24)).2.2 := rfl
  constructor
  · intro hall
    rcases hdisj with ⟨hM, hH⟩ | ⟨hM, j, hjmem, hjv, hjf, htie⟩
    · exact ⟨by rw [hPH, hH], by rw [hPA, hpM, hM]⟩
    · exfalso
      have h1 := hall j
      rw [hjf] at h1
      exact absurd (lt_of_lt_of_le hM h1) (lt_irrefl 0)
  · rintro ⟨i0, hi0⟩
    rcases hdisj with ⟨hM, _⟩ | ⟨hM, j, hjmem, hjv, hjf, htie⟩
    · exfalso
      have h1 := hub i0 (List.mem_finRange i0)
      rw [hM] at h1
      exact absurd (lt_of_lt_of_le hi0 h1) (lt_irrefl 0)
    · refine ⟨j, ?_, ?_, ?_, ?_⟩
      · rw [hPH]
        exact hjv
      · rw [hPA, hpM]
        exact hjf
      · intro i
        rw [hPA, hpM]
        exact hub i (List.mem_finRange i)
      · intro i hlt
        rw [hPA, hpM]
        refine htie i (List.mem_finRange i) ?_
        rw [← hPH]
        exact hlt

/-- C7 witness: the existence hypothesis discharged on two concrete days
whose hour-12 average is positive. -/
theorem claim_C7_witness :
    ∃ j : Fin 24, j.val = (AggregateDaysCore wDay1 [wDay2]).PeakHour ∧
      ((AggregateDaysCore wDay1 [wDay2]).ByHour j).Average =
        (AggregateDaysCore wDay1 [wDay2]).PeakPowerAvg ∧
      (∀ i : Fin 24, ((AggregateDaysCore wDay1 [wDay2]).ByHour i).Average ≤
        (AggregateDaysCore wDay1 [wDay2]).PeakPowerAvg) ∧
      (∀ i : Fin 24, i.val < (AggregateDaysCore wDay1 [wDay2]).PeakHour →
        ((AggregateDaysCore wDay1 [wDay2]).ByHour i).Average <
          (AggregateDaysCore wDay1 [wDay2]).PeakPowerAvg) :=
  (claim_C7 wDay1 [wDay2]).2 (by with_unfolding_all decide)

/-- C8: total production is the sum over days of that day's 24 bucket
means (in watts) divided by 1000, computed from the per-day raw means, and
the daily average is total production divided by the day count, which is
always positive here. -/
theorem claim_C8 (d0 : DailyStats) (rest : List DailyStats) :
    (AggregateDaysCore d0 rest).TotalProduction =
      ((d0 :: rest).map
        (fun d => ((List.finRange 24).map (fun i => meanAt d i)).sum / 1000)).sum ∧
    (AggregateDaysCore d0 rest).DaysAnalyzed = (d0 :: rest).length ∧
    0 < (AggregateDaysCore d0 rest).DaysAnalyzed ∧
    (AggregateDaysCore d0 rest).DailyAverage =
      (AggregateDaysCore d0 rest).TotalProduction /
        ((AggregateDaysCore d0 rest).DaysAnalyzed : ℚ) := by
  have h1 : ∀ day : DailyStats, (List.finRange 24).foldl (energyStep day) 0 =
      ((List.finRange 24).map (fun i => meanAt day i)).sum / 1000 := by
    intro day
    have hstep : energyStep day = fun de i => de + meanAt day i / 1000 := by
      funext de i
      rcases h : day.Hours i with _ | hs <;> simp [energyStep, meanAt, h]
    rw [hstep, foldl_add_eq (fun i => meanAt day i / 1000) _ 0, zero_add,
      sum_map_div]
  refine ⟨?_, daysAnalyzed_eq d0 rest, ?_, ?_⟩
  · rw [totalProduction_eq]
    have h2 : (fun (acc : ℚ) (day : DailyStats) =>
        acc + (List.finRange 24).foldl (energyStep day) 0) =
        fun acc day =>
          acc + ((List.finRange 24).map (fun i => meanAt day i)).sum / 1000 := by
      funext acc day
      rw [h1 day]
    rw [h2, foldl_add_eq
      (fun day => ((List.finRange 24).map (fun i => meanAt day i)).sum / 1000)
      (d0 :: rest) 0, zero_add]
  · rw [daysAnalyzed_eq]
    simp
  · rw [dailyAverage_eq, if_pos (by simp), daysAnalyzed_eq]

end Growatt
